import Mathlib

/-!
Verification development for the `mcp-project-context` code-context assembler.

The definitions below are a shallow embedding, into Lean, of the TypeScript
sources `src/context-builder.ts`, `src/analyzer.ts` and `src/context-validator.ts`:

* JavaScript strings are Lean `String`s (a wrapper around `List Char`), and the
  JavaScript string primitives used by the code (`includes`, `startsWith`,
  `trim`, `toLowerCase`, `split`, `join`) are re-implemented here on character
  lists so that every definition is executable by the kernel.
* JavaScript numbers are embedded as `Nat`/`Int`/`ℚ`: every score produced by
  the code is a finite decimal, so exact rational arithmetic mirrors the
  computation (all constants are 2-digit decimals).
* Asynchronous I/O (file reads, `fs.stat`) is embedded by passing the outcome
  of the I/O action as an explicit argument (an `Option`/`Except` value), and
  a thrown exception becomes the error constructor of that argument.
-/

/-! ## JavaScript string primitives on character lists -/

/-- Does `p` occur as an initial segment of `s`?  (Kernel-friendly form of
`List.isPrefixOf`, used to implement JavaScript's `includes`/`startsWith`.) -/
def charsHasPref : List Char → List Char → Bool
  | [], _ => true
  | _ :: _, [] => false
  | p :: ps, c :: cs => p == c && charsHasPref ps cs

/-- JavaScript `s.includes(pat)` on character lists: does `pat` occur as a
contiguous substring of `s`? -/
def charsContains (pat : List Char) : List Char → Bool
  | [] => charsHasPref pat []
  | c :: cs => charsHasPref pat (c :: cs) || charsContains pat cs

/-- JavaScript `s.includes(pat)`. -/
def strIncludes (s pat : String) : Bool := charsContains pat.data s.data

/-- JavaScript `s.startsWith(pat)`. -/
def strStarts (s pat : String) : Bool := charsHasPref pat.data s.data

/-- ASCII lower-casing of one character; the sources only ever compare against
ASCII literals, so this models JavaScript's `toLowerCase` on the fragment the
program exercises. -/
def charToLower (c : Char) : Char :=
  if 'A' ≤ c && c ≤ 'Z' then Char.ofNat (c.toNat + 32) else c

/-- JavaScript `s.toLowerCase()` (ASCII fragment). -/
def toLowerS (s : String) : String := ⟨s.data.map charToLower⟩

/-- The whitespace class of JavaScript's `\s` on the ASCII fragment. -/
def isJsSpace (c : Char) : Bool := c == ' ' || c == '\t' || c == '\n' || c == '\r'

/-- Strip leading and trailing whitespace from a character list
(JavaScript `s.trim()`). -/
def trimChars (l : List Char) : List Char :=
  ((l.dropWhile isJsSpace).reverse.dropWhile isJsSpace).reverse

/-- JavaScript `s.trim()`. -/
def trimS (s : String) : String := ⟨trimChars s.data⟩

/-- Split a character list at every character satisfying `p`
(JavaScript `s.split(c)` for a one-character separator, or `s.split(/\s+/)` up
to empty pieces, which every caller filters away).  The result is never empty:
`n` separators yield `n + 1` (possibly empty) pieces. -/
def splitOnPred (p : Char → Bool) : List Char → List (List Char)
  | [] => [[]]
  | c :: cs =>
    if p c then [] :: splitOnPred p cs
    else
      match splitOnPred p cs with
      | [] => [[c]]
      | l :: ls => (c :: l) :: ls

/-- JavaScript `pieces.join(sep)` on character lists. -/
def joinWithChars (sep : List Char) : List (List Char) → List Char
  | [] => []
  | [l] => l
  | l :: l' :: ls => l ++ sep ++ joinWithChars sep (l' :: ls)

/-- JavaScript `s.split('\n')`. -/
def splitNl (s : String) : List String := (splitOnPred (· == '\n') s.data).map String.mk

/-- JavaScript `pieces.join('\n')`. -/
def joinNl (l : List String) : String := ⟨joinWithChars ['\n'] (l.map String.data)⟩

/-- Fuelled worker for `splitOnLit`. -/
def splitOnLitF (sep : List Char) : Nat → List Char → List (List Char)
  | _, [] => [[]]
  | 0, l => [l]
  | fuel + 1, c :: cs =>
    if sep ≠ [] && charsHasPref sep (c :: cs) then
      [] :: splitOnLitF sep fuel (cs.drop (sep.length - 1))
    else
      match splitOnLitF sep fuel cs with
      | [] => [[c]]
      | l :: ls => (c :: l) :: ls

/-- JavaScript `s.split(sep)` for a non-empty literal separator: split at the
leftmost non-overlapping occurrences of `sep` (`splitOnLitF` with enough fuel;
as in `countWithNe`, the fuel only makes the recursion structural). -/
def splitOnLit (sep l : List Char) : List (List Char) := splitOnLitF sep l.length l

/-- JavaScript `s.split(sep)` (non-empty string separator). -/
def jsSplit (s sep : String) : List String := (splitOnLit sep.data s.data).map String.mk

/-- JavaScript `pieces.join(sep)`. -/
def jsJoin (sep : String) (l : List String) : String :=
  ⟨joinWithChars sep.data (l.map String.data)⟩

/-! ## Global match counting (JavaScript `(s.match(new RegExp(pat, 'g')) || []).length`)

`calculateRelevanceScore` builds a regular expression from each raw query
keyword.  The matcher below embeds JavaScript's global, leftmost,
non-overlapping match count for the PLAIN fragment of patterns delimited by
`rePlain`: every pattern character is either the `'.'` wildcard (matching
any character except a line terminator) or a non-metacharacter matching
itself.  On that fragment the embedding agrees with `new RegExp` exactly,
and compilation cannot throw.  Keywords containing any other metacharacter
(`*`, `+`, `?`, `(`, `[`, `\`, ...) give the compiled pattern richer
semantics — or make `new RegExp` throw a `SyntaxError`, which would
propagate to the request boundary — and are outside the model, so every
theorem about the content term carries the `rePlain` side condition.
`litCount` is the same count with every character taken literally (the
reading used by the specification's words). -/

/-- Try to match the pattern `ps` (one atom per character, compared by `m`)
at the head of `s`; on success return the unconsumed rest. -/
def matchAtWith (m : Char → Char → Bool) : List Char → List Char → Option (List Char)
  | [], s => some s
  | _ :: _, [] => none
  | p :: ps, c :: cs => if m p c then matchAtWith m ps cs else none

/-- Count the leftmost non-overlapping matches of the non-empty pattern
`p :: ps` in a string, advancing past each match (JavaScript `'g'`-flag
semantics; a non-empty single-character-atom pattern never produces an empty
match, so `lastIndex` always advances by the match length).  The `fuel`
argument only makes the recursion structural: each step consumes one unit of
fuel while the string loses at least one character (a successful match
consumes `1 + ps.length ≥ 1` characters), so any `fuel ≥ s.length` computes
the count; callers pass `s.length`. -/
def countWithNe (m : Char → Char → Bool) (p : Char) (ps : List Char) :
    Nat → List Char → Nat
  | _, [] => 0
  | 0, _ :: _ => 0
  | fuel + 1, c :: cs =>
    if m p c then
      match matchAtWith m ps cs with
      | some rest => 1 + countWithNe m p ps fuel rest
      | none => countWithNe m p ps fuel cs
    else countWithNe m p ps fuel cs

/-- JavaScript global match count for a single-character-atom pattern.  An
empty pattern matches (emptily) once at every position, including the end of
the string. -/
def countWith (m : Char → Char → Bool) (pat s : List Char) : Nat :=
  match pat with
  | [] => s.length + 1
  | p :: ps => countWithNe m p ps s.length s

/-- The characters to which `new RegExp` assigns special meaning (the brace
characters are written via their code points). -/
def isReMetachar (c : Char) : Bool :=
  c == '\\' || c == '^' || c == '$' || c == '.' || c == '*' || c == '+' ||
  c == '?' || c == '(' || c == ')' || c == '[' || c == ']' ||
  c == Char.ofNat 123 || c == Char.ofNat 125 || c == '|'

/-- The plain-pattern fragment on which the atom matcher is a faithful
embedding of `new RegExp`: every character is the `'.'` wildcard or a
non-metacharacter literal. -/
def rePlain (pat : List Char) : Bool :=
  pat.all (fun c => c == '.' || !isReMetachar c)

/-- Atom semantics of `new RegExp` on the plain fragment: `'.'` matches any
character except a line terminator (`'\n'`, `'\r'`, U+2028, U+2029); a
non-metacharacter matches itself. -/
def reCharMatches (p c : Char) : Bool :=
  if p == '.' then
    !(c == '\n' || c == '\r' || c == Char.ofNat 0x2028 || c == Char.ofNat 0x2029)
  else p == c

/-- Number of matches of the keyword, compiled as a regular expression, in
`s` (the count the source's `content.match(new RegExp(keyword, 'g'))` takes
the length of) — faithful for keywords in the `rePlain` fragment. -/
def reCount (pat s : List Char) : Nat := countWith reCharMatches pat s

/-- Number of leftmost non-overlapping literal occurrences of `pat` in `s`
(the "literal occurrences" reading of the specification). -/
def litCount (pat s : List Char) : Nat := countWith (· == ·) pat s

/-! ## Data model (`src/analyzer.ts`, interface `FileInfo`) -/

/-- The closed language tags of `detectLanguage` (named `Lang` because Mathlib
already declares `Language`). -/
inductive Lang where
  | typescript
  | javascript
  | python
  | other
deriving DecidableEq

/-- One entry of `FileInfo.imports`. -/
structure ImportRecord where
  path : String
  imports : List String
  isDefault : Bool
deriving DecidableEq

/-- One entry of `FileInfo.exports` (the `type` tag is one of
`function/class/interface/type/const/default`). -/
structure ExportRecord where
  name : String
  kind : String
  line : Nat
deriving DecidableEq

/-- One entry of `FileInfo.functions`. -/
structure FunctionRecord where
  name : String
  startLine : Nat
  endLine : Nat
  params : List String
  isAsync : Bool
  isExported : Bool
deriving DecidableEq

/-- One entry of `FileInfo.classes` (`extendsName` embeds the source field
`extends`, a reserved word in Lean). -/
structure ClassRecord where
  name : String
  startLine : Nat
  endLine : Nat
  methods : List String
  extendsName : Option String
  implementsList : Option (List String)
  isExported : Bool
deriving DecidableEq

/-- One entry of `FileInfo.interfaces`. -/
structure InterfaceRecord where
  name : String
  startLine : Nat
  endLine : Nat
  properties : List String
  isExported : Bool
deriving DecidableEq

/-- One entry of `FileInfo.types`. -/
structure TypeAliasRecord where
  name : String
  startLine : Nat
  definition : String
  isExported : Bool
deriving DecidableEq

/-- The per-file fact record (`interface FileInfo` in `src/analyzer.ts`).
`lastModified` embeds the JavaScript `Date` as an abstract timestamp. -/
structure FileInfo where
  path : String
  relativePath : String
  content : String
  size : Nat
  lastModified : Nat
  imports : List ImportRecord
  exports : List ExportRecord
  functions : List FunctionRecord
  classes : List ClassRecord
  interfaces : List InterfaceRecord
  types : List TypeAliasRecord
  dependencies : List String
  language : Lang
deriving DecidableEq

/-- `['typescript', 'javascript'].includes(lang)`. -/
def isPrimaryLanguage : Lang → Bool
  | .typescript => true
  | .javascript => true
  | _ => false

/-! ## Relevance ranking (`src/context-builder.ts`, `findRelevantFiles` and
`calculateRelevanceScore`) -/

/-- `query.toLowerCase().split(/\s+/).filter(word => word.length > 2)`.
Splitting on the whitespace class char-by-char can produce extra empty
pieces compared to `/\s+/`, but the length filter removes every empty piece,
so the keyword list is the same. -/
def queryKeywords (query : String) : List String :=
  (((splitOnPred isJsSpace (toLowerS query).data).map String.mk).filter
    (fun word => word.length > 2))

/-- The first disjunct of the relevance test: some keyword occurs in the
lowercased relative path, or in some function name, or in some class name. -/
def fileNameMatches (file : FileInfo) (keywords : List String) : Bool :=
  keywords.any fun keyword =>
    strIncludes (toLowerS file.relativePath) keyword ||
    file.functions.any (fun fn => strIncludes (toLowerS fn.name) keyword) ||
    file.classes.any (fun cls => strIncludes (toLowerS cls.name) keyword)

/-- The second disjunct: some keyword occurs in the lowercased content or in
some import path. -/
def contentMatches (file : FileInfo) (keywords : List String) : Bool :=
  keywords.any fun keyword =>
    strIncludes (toLowerS file.content) keyword ||
    file.imports.any (fun imp => strIncludes (toLowerS imp.path) keyword)

/-- The filter callback of `findRelevantFiles`: non-primary languages are
rejected outright, otherwise either disjunct suffices. -/
def relevancePred (keywords : List String) (file : FileInfo) : Bool :=
  if !isPrimaryLanguage file.language then false
  else fileNameMatches file keywords || contentMatches file keywords

/-- The fallback filter: primary-language files whose (lowercased) path
contains "index" or "main", or that define at least one function or class. -/
def fallbackPred (file : FileInfo) : Bool :=
  isPrimaryLanguage file.language &&
    (strIncludes (toLowerS file.relativePath) "index" ||
     strIncludes (toLowerS file.relativePath) "main" ||
     file.functions.length > 0 || file.classes.length > 0)

/-- The fallback branch: `allFiles.filter(...).slice(0, 10)`. -/
def fallbackFiles (allFiles : List FileInfo) : List FileInfo :=
  (allFiles.filter fallbackPred).take 10

/-- The candidate set of `findRelevantFiles` before scope filtering and
sorting: the relevance-filtered files, or the fallback set when that filter
selected nothing. -/
def candidateFiles (allFiles : List FileInfo) (query : String) : List FileInfo :=
  let keywords := queryKeywords query
  let relevantFiles := allFiles.filter (relevancePred keywords)
  if relevantFiles.length == 0 then fallbackFiles allFiles else relevantFiles

/-- Scope filtering: `'function'` keeps files with ≥ 1 function, `'class'`
keeps files with ≥ 1 class, anything else is a no-op. -/
def scopeFilter (scope : Option String) (files : List FileInfo) : List FileInfo :=
  if scope == some "function" then files.filter (fun f => f.functions.length > 0)
  else if scope == some "class" then files.filter (fun f => f.classes.length > 0)
  else files

/-- The body of the `keywords.forEach` accumulator inside
`calculateRelevanceScore`: starting from the running score, add +10 for a
path hit, +8 for a function-name hit, +8 for a class-name hit,
+`min(contentMatches, 5)` where `contentMatches` is the global match count of
`new RegExp(keyword, 'g')` against the lowercased content (embedded by
`reCount`, faithful for keywords in the `rePlain` fragment), and +5 for an
import-path hit. -/
def scoreStep (file : FileInfo) (score : Nat) (keyword : String) : Nat :=
  let fileName := toLowerS file.relativePath
  let content := toLowerS file.content
  let score := if strIncludes fileName keyword then score + 10 else score
  let score := if file.functions.any (fun fn => strIncludes (toLowerS fn.name) keyword)
    then score + 8 else score
  let score := if file.classes.any (fun cls => strIncludes (toLowerS cls.name) keyword)
    then score + 8 else score
  let contentMatchCount := reCount keyword.data content.data
  let score := score + min contentMatchCount 5
  let score := if file.imports.any (fun imp => strIncludes (toLowerS imp.path) keyword)
    then score + 5 else score
  score

/-- `calculateRelevanceScore`: the `forEach` accumulation of `scoreStep`
over all keywords, starting from 0. -/
def calculateRelevanceScore (file : FileInfo) (keywords : List String) : Nat :=
  keywords.foldl (scoreStep file) 0

/-- The contribution of a single keyword to `calculateRelevanceScore`,
written as a closed formula (content term as in `scoreStep`: regex match
count, faithful for `rePlain` keywords). -/
def keywordTerm (file : FileInfo) (keyword : String) : Nat :=
  (if strIncludes (toLowerS file.relativePath) keyword then 10 else 0) +
  (if file.functions.any (fun fn => strIncludes (toLowerS fn.name) keyword) then 8 else 0) +
  (if file.classes.any (fun cls => strIncludes (toLowerS cls.name) keyword) then 8 else 0) +
  min (reCount keyword.data (toLowerS file.content).data) 5 +
  (if file.imports.any (fun imp => strIncludes (toLowerS imp.path) keyword) then 5 else 0)

/-- The keyword contribution the specification's words describe: identical to
`keywordTerm` except that the content term counts literal (non-overlapping)
occurrences of the keyword instead of regular-expression matches. -/
def keywordTermLiteral (file : FileInfo) (keyword : String) : Nat :=
  (if strIncludes (toLowerS file.relativePath) keyword then 10 else 0) +
  (if file.functions.any (fun fn => strIncludes (toLowerS fn.name) keyword) then 8 else 0) +
  (if file.classes.any (fun cls => strIncludes (toLowerS cls.name) keyword) then 8 else 0) +
  min (litCount keyword.data (toLowerS file.content).data) 5 +
  (if file.imports.any (fun imp => strIncludes (toLowerS imp.path) keyword) then 5 else 0)

/-- The relevance score the specification's words describe (sum of
`keywordTermLiteral` over all keywords). -/
def claimedRelevanceScore (file : FileInfo) (keywords : List String) : Nat :=
  (keywords.map (keywordTermLiteral file)).sum

/-- `findRelevantFiles`: filter by relevance (with fallback), apply the scope
filter, sort descending by `calculateRelevanceScore` (stable merge sort
embeds the V8 comparator `bScore - aScore`), and keep the top 20. -/
def findRelevantFiles (allFiles : List FileInfo) (query : String)
    (scope : Option String) : List FileInfo :=
  let keywords := queryKeywords query
  let relevantFiles := scopeFilter scope (candidateFiles allFiles query)
  (relevantFiles.mergeSort (fun a b =>
    decide (calculateRelevanceScore b keywords ≤ calculateRelevanceScore a keywords))).take 20

/-! ## Token estimation and dependency graph (`src/context-builder.ts`) -/

/-- `estimateTokenCount`: `Math.ceil(content.length / 4)`, i.e. ceiling
division of the character length by 4. -/
def estimateTokenCount (content : String) : Nat := (content.length + 3) / 4

/-- One node of the ad-hoc dependency graph built by `buildDependencyGraph`. -/
structure GraphNode where
  id : String
  nodeLanguage : Lang
  size : Nat
  functions : Nat
  classes : Nat
deriving DecidableEq

/-- One edge of the dependency graph (the `type` field is always
`"import"`). -/
structure GraphEdge where
  source : String
  target : String
  kind : String
deriving DecidableEq

/-- `buildDependencyGraph`: one node per ranked file; for every
`(file, import)` pair, an edge to the first ranked file whose relative path
contains the import path or equals it extended with `.ts`/`.js`; unmatched
imports produce no edge. -/
def buildDependencyGraph (files : List FileInfo) : List GraphNode × List GraphEdge :=
  let nodes := files.map (fun f =>
    { id := f.relativePath, nodeLanguage := f.language, size := f.size,
      functions := f.functions.length, classes := f.classes.length : GraphNode })
  let edges := files.flatMap (fun file =>
    file.imports.filterMap (fun imp =>
      match files.find? (fun f =>
        strIncludes f.relativePath imp.path ||
        f.relativePath == imp.path ++ ".ts" ||
        f.relativePath == imp.path ++ ".js") with
      | some targetFile =>
        some { source := file.relativePath, target := targetFile.relativePath,
               kind := "import" : GraphEdge }
      | none => none))
  (nodes, edges)


/-! ## Extraction (`src/analyzer.ts`, `analyzeFile` and `indexProject`) -/

/-- The `path.extname` fragment used by `detectLanguage`: the suffix of the
path from its last `'.'` (empty when the path has no `'.'`). -/
def extnameChars (l : List Char) : List Char :=
  let tail := (l.reverse.takeWhile (fun c => c != '.')).reverse
  if tail.length == l.length then [] else '.' :: tail

/-- `detectLanguage`: switch on the lowercased file extension. -/
def detectLanguage (filePath : String) : Lang :=
  let ext := toLowerS ⟨extnameChars filePath.data⟩
  if ext == ".ts" || ext == ".tsx" then .typescript
  else if ext == ".js" || ext == ".jsx" then .javascript
  else if ext == ".py" then .python
  else .other

/-- Result of `fs.stat`. -/
structure FileStat where
  size : Nat
  mtime : Nat
deriving DecidableEq

/-- The regex-driven `extract*` methods of `ProjectAnalyzer`, bundled.  The
claims about `analyzeFile` hold for every extractor output, so the theorems
below quantify over this bundle instead of fixing one transcription of the
extraction regexes. -/
structure Extractors where
  extractImports : String → Lang → List ImportRecord
  extractExports : String → Lang → List ExportRecord
  extractFunctions : String → Lang → List FunctionRecord
  extractClasses : String → Lang → List ClassRecord
  extractInterfaces : String → Lang → List InterfaceRecord
  extractTypes : String → Lang → List TypeAliasRecord

/-- `analyzeFile`.  `readStat` is the combined outcome of the `fs.stat` and
`fs.readFile` awaits (`none` when either throws); `pathRelative` is Node's
`path.relative`, an out-of-scope path collaborator passed explicitly; `now`
is the timestamp `new Date()` takes in the failure branch.  On success the
record carries the six extracted fact lists and derives `dependencies` from
the import paths; on failure it is the minimal record: empty lists, empty
content, size 0, language `other`. -/
def analyzeFile (ex : Extractors) (pathRelative : String → String → String)
    (projectRoot : String) (readStat : String → Option (FileStat × String))
    (now : Nat) (filePath : String) : FileInfo :=
  match readStat filePath with
  | some (stats, content) =>
    let relativePath := pathRelative projectRoot filePath
    let language := detectLanguage filePath
    let imports := ex.extractImports content language
    { path := filePath
      relativePath := relativePath
      content := content
      size := stats.size
      lastModified := stats.mtime
      imports := imports
      exports := ex.extractExports content language
      functions := ex.extractFunctions content language
      classes := ex.extractClasses content language
      interfaces := ex.extractInterfaces content language
      types := ex.extractTypes content language
      dependencies := imports.map ImportRecord.path
      language := language }
  | none =>
    { path := filePath
      relativePath := pathRelative projectRoot filePath
      content := ""
      size := 0
      lastModified := now
      imports := []
      exports := []
      functions := []
      classes := []
      interfaces := []
      types := []
      dependencies := []
      language := .other }

/-- The batch of `analyzeFile` calls issued by `indexProject` over the listed
paths, together with the cache insertions `this.cache.set(filePath, ...)`
(association pairs keyed by absolute path; later entries overwrite). -/
def indexBatch (ex : Extractors) (pathRelative : String → String → String)
    (projectRoot : String) (readStat : String → Option (FileStat × String))
    (now : Nat) (paths : List String) : List (String × FileInfo) :=
  paths.map (fun p => (p, analyzeFile ex pathRelative projectRoot readStat now p))

/-! ## Request boundary (`src/context-builder.ts`, `buildCompleteContext`) -/

/-- The `metadata` field of a context response. -/
structure ResponseMetadata where
  totalFiles : Nat
  totalLines : Nat
  totalFunctions : Nat
  totalClasses : Nat
  primaryLanguage : String
  estimatedTokens : Nat
deriving DecidableEq

/-- The `usagePatterns` value of a response.  The field is untyped (`any`) in
the source: the success path stores the aggregate computed by
`analyzeUsagePatterns`, while both error paths store the literal
`{ patterns: [] }`, embedded as the `errorPatterns` constructor. -/
inductive UsagePatternsField where
  | errorPatterns
  | aggregated (commonImports : List (String × Nat)) (architecturalPatterns : List String)
      (functionUsagePatterns : List (String × Nat)) (classUsagePatterns : List String)
deriving DecidableEq

/-- The response record `buildCompleteContext` resolves with. -/
structure ContextResponse where
  formattedContext : String
  metadata : ResponseMetadata
  summary : String
  folderTree : String
  dependencyGraph : List GraphNode × List GraphEdge
  usagePatterns : UsagePatternsField
  filesIncluded : List String
  totalLines : Nat
  compressionLevel : String
  tokenCount : Nat
deriving DecidableEq

/-- The response literal returned when `validateProjectRoot` reports an
invalid root (the early-return branch of `buildCompleteContext`). -/
def invalidRootResponse (query message folderTree : String) : ContextResponse :=
  { formattedContext := "# Error Building Context\n\nAn error occurred while building context for query: \"" ++ query ++ "\"\n\nError: " ++ message ++ "\n\nPlease check the project structure below and adjust accordingly."
    metadata := { totalFiles := 0, totalLines := 0, totalFunctions := 0, totalClasses := 0,
                  primaryLanguage := "unknown", estimatedTokens := 100 }
    summary := "Error occurred during context building - check folder structure"
    folderTree := folderTree
    dependencyGraph := ([], [])
    usagePatterns := .errorPatterns
    filesIncluded := []
    totalLines := 0
    compressionLevel := "error"
    tokenCount := 100 }

/-- The response literal built by the outermost `catch` of
`buildCompleteContext`. -/
def catchResponse (query message folderTree : String) : ContextResponse :=
  { formattedContext := "# Error Building Context\n\nAn error occurred while building context for query: \"" ++ query ++ "\"\n\nError: " ++ message ++ "\n\nPlease check the project structure below to understand the issue."
    metadata := { totalFiles := 0, totalLines := 0, totalFunctions := 0, totalClasses := 0,
                  primaryLanguage := "unknown", estimatedTokens := 100 }
    summary := "Error occurred during context building - check folder structure"
    folderTree := folderTree
    dependencyGraph := ([], [])
    usagePatterns := .errorPatterns
    filesIncluded := []
    totalLines := 0
    compressionLevel := "error"
    tokenCount := 100 }

/-- Outcome of the fallible work inside the `try` block after root validation
(indexing, ranking, formatting, compression): either the success response it
would return, or the message of the exception it threw. -/
inductive TryOutcome where
  | ok (response : ContextResponse)
  | thrown (message : String)

/-- Control skeleton of `buildCompleteContext`.  The file-system-dependent
subcomputations enter as arguments: `validation` is the outcome of
`validateProjectRoot` (`Except.error message` when `valid` is false),
`folderTree` the tree rendered for error reporting, and `body` the outcome of
the `try` block.  Every path returns a response; no exception escapes to the
caller. -/
def buildCompleteContext (query folderTree : String)
    (validation : Except String Unit) (body : TryOutcome) : ContextResponse :=
  match validation with
  | .error message => invalidRootResponse query message folderTree
  | .ok _ =>
    match body with
    | .ok response => response
    | .thrown message => catchResponse query message folderTree


/-! ## Sample records for evaluating the claims on concrete inputs -/

/-- A concrete indexed TypeScript file (path contains "index"). -/
def sampleTsFile : FileInfo :=
  { path := "/proj/src/index.ts"
    relativePath := "src/index.ts"
    content := "export const a = 1"
    size := 18
    lastModified := 0
    imports := []
    exports := []
    functions := []
    classes := []
    interfaces := []
    types := []
    dependencies := []
    language := .typescript }

/-- A concrete file whose content matches the keyword `"a.c"` as a regular
expression but not as a literal substring. -/
def dotKeywordFile : FileInfo :=
  { path := "/proj/src/foo.ts"
    relativePath := "src/foo.ts"
    content := "axc"
    size := 3
    lastModified := 0
    imports := []
    exports := []
    functions := []
    classes := []
    interfaces := []
    types := []
    dependencies := []
    language := .typescript }


/-! ## Budget compression (`src/context-builder.ts`, `intelligentCompression`
and `aggressiveCompression`) -/

/-- The per-line keep test Tier 1 applies inside a rendered file block
("keep only essential parts of each file"). -/
def keepLineTier1 (line : String) : Bool :=
  let trimmed := trimS line
  strStarts trimmed "export" || strStarts trimmed "import" ||
  strStarts trimmed "function" || strStarts trimmed "class" ||
  strStarts trimmed "interface" || strStarts trimmed "type" ||
  strStarts trimmed "const" || strStarts trimmed "//" ||
  strIncludes trimmed "TODO" || strIncludes trimmed "FIXME" ||
  strStarts line "```"

/-- Tier 1's treatment of one rendered file block (the text after a `"### "`
marker): the first line (the filename; the split is never empty) followed by
the lines passing `keepLineTier1`. -/
def compressFileBlock (file : String) : String :=
  let lines := splitNl file
  let filename := lines.headD ""
  filename ++ "\n" ++ joinNl (lines.filter keepLineTier1)

/-- Tier 1's treatment of one document section (index `i` in the section
list): the file-contents section is rebuilt from its compressed file blocks,
every other section passes through (with its `"## "` prefix restored except
on the leading section). -/
def compressSection (i : Nat) (sec : String) : String :=
  if strIncludes sec "Complete File Contents" then
    let files := (jsSplit sec "### ").drop 1
    let compressedFiles := files.map compressFileBlock
    "## " ++ (splitNl sec).headD "" ++ "\n\n" ++
      jsJoin "\n\n---\n\n" (compressedFiles.map (fun f => "### " ++ f))
  else if i == 0 then sec else "## " ++ sec

/-- The section pass of `intelligentCompression` (Tier 1): split the document
on `"\n## "` boundaries, compress each section, re-join with blank lines. -/
def tier1Compress (context : String) : String :=
  let sections := jsSplit context "\n## "
  jsJoin "\n\n" (sections.enum.map (fun p => compressSection p.1 p.2))

/-- Tier 2's keep test inside a fenced code block. -/
def keepLineTier2Code (line : String) : Bool :=
  let trimmed := trimS line
  strStarts trimmed "export" || strStarts trimmed "import" ||
  strStarts trimmed "function" || strStarts trimmed "class" ||
  strStarts trimmed "interface" || strStarts trimmed "type" ||
  strStarts trimmed "const" || strStarts trimmed "let" ||
  strStarts trimmed "var" || strIncludes trimmed "//" ||
  strIncludes trimmed "/*" || trimmed == "" || strStarts line "#"

/-- Tier 2's keep test outside fenced code blocks. -/
def keepLineTier2Text (line : String) : Bool :=
  strStarts line "#" || strStarts line "**" || strStarts line "- " ||
  strStarts line "*" || trimS line == "" ||
  strIncludes line "Summary" || strIncludes line "Insights"

/-- The line scan of `aggressiveCompression`: fence-delimiter lines toggle
the fence state and are always kept; other lines are kept according to the
in-fence or out-of-fence test. -/
def aggressiveFilter : Bool → List String → List String
  | _, [] => []
  | inCodeBlock, line :: rest =>
    if strStarts line "```" then line :: aggressiveFilter (!inCodeBlock) rest
    else if inCodeBlock then
      if keepLineTier2Code line then line :: aggressiveFilter inCodeBlock rest
      else aggressiveFilter inCodeBlock rest
    else
      if keepLineTier2Text line then line :: aggressiveFilter inCodeBlock rest
      else aggressiveFilter inCodeBlock rest

/-- `aggressiveCompression` (Tier 2): keep only the important lines of the
document.  The `maxTokens` parameter is accepted but never used by the
source (and the `currentLanguage` variable it maintains is dead for the
output). -/
def aggressiveCompression (context : String) (maxTokens : Nat) : String :=
  joinNl (aggressiveFilter false (splitNl context))

/-- `intelligentCompression`: the Tier 1 section pass; then, only when the
Tier 1 output's estimate still exceeds `maxTokens`, the Tier 2 pass, whose
output is returned without any further budget check. -/
def intelligentCompression (context : String) (maxTokens : Nat) : String :=
  let compressedContext := tier1Compress context
  if maxTokens < estimateTokenCount compressedContext then
    aggressiveCompression compressedContext maxTokens
  else compressedContext


/-! ## Completeness validation (`src/context-validator.ts`) -/

/-- JavaScript `Math.round` on the non-negative values produced by the
validator: round half up, `⌊x + 1/2⌋`. -/
def jsRound (x : ℚ) : ℤ := ⌊x + 1/2⌋

/-- Worker for `jsDedup`: skip elements already seen. -/
def jsDedupAux (seen : List String) : List String → List String
  | [] => []
  | a :: l => if a ∈ seen then jsDedupAux seen l else a :: jsDedupAux (a :: seen) l

/-- `[...new Set(list)]`: de-duplicate, keeping first occurrences in
order. -/
def jsDedup (l : List String) : List String := jsDedupAux [] l

/-- The query descriptor computed by `analyzeQuery` (interface
`QueryAnalysis`; the source field `type` is named `queryType` here). -/
structure QueryAnalysis where
  queryType : String
  entities : List String
  scope : String
  requiresImplementation : Bool
  requiresTests : Bool
  requiresDocumentation : Bool
  requiresDependencies : Bool
  keywords : List String
deriving DecidableEq

/-- Does the word begin with an ASCII capital (`/^[A-Z]/.test(word)`)? -/
def startsWithUpper (w : String) : Bool :=
  match w.data with
  | [] => false
  | c :: _ => 'A' ≤ c && c ≤ 'Z'

/-- `analyzeQuery`: classify the query and extract keywords/entities.  The
source initializes `type` to `'general'` and overwrites it through an
if/else-if chain; keyword extraction does not lowercase; the entity filter
reproduces the source's operator precedence
`(length > 2 && /^[A-Z]/) || includes('.')`. -/
def analyzeQuery (query : String) : QueryAnalysis :=
  let queryLower := toLowerS query
  let words := (splitOnPred isJsSpace query.data).map String.mk
  { queryType :=
      if strIncludes queryLower "function" || strIncludes queryLower "method" then "function"
      else if strIncludes queryLower "class" || strIncludes queryLower "object" then "class"
      else if strIncludes queryLower "module" || strIncludes queryLower "file" then "module"
      else if strIncludes queryLower "feature" || strIncludes queryLower "component" then "feature"
      else "general"
    entities := words.filter (fun word =>
      (word.length > 2 && startsWithUpper word) || strIncludes word ".")
    scope := "feature"
    requiresImplementation := strIncludes queryLower "implement" ||
      strIncludes queryLower "code" || strIncludes queryLower "how"
    requiresTests := strIncludes queryLower "test" || strIncludes queryLower "spec"
    requiresDocumentation := strIncludes queryLower "document" ||
      strIncludes queryLower "readme"
    requiresDependencies := true
    keywords := words.filter (fun word => word.length > 2) }

/-- One validator's contribution (interface `ValidationDetail`). -/
structure ValidationDetail where
  score : ℚ
  weight : ℚ
  missingElements : List String
  suggestions : List String
  warnings : List String
  strengths : List String
deriving DecidableEq

/-- The code-fence count `(context.match(/` + three backticks +
`[\s\S]*?` + three backticks + `/g) || []).length`: the lazy pattern pairs
up successive non-overlapping occurrences of three backticks scanned left to
right, so the count is half the non-overlapping occurrence count. -/
def codeBlockCount (s : String) : Nat := litCount "```".data s.data / 2

/-- The markdown-header count `(context.match(/^##? /gm) || []).length`: one
match per line beginning with `"# "` or `"## "`. -/
def headerCount (s : String) : Nat :=
  ((splitNl s).filter (fun line => strStarts line "# " || strStarts line "## ")).length

/-- `validateCodeCompleteness` (weight 0.30).  Sequential field mutations of
the source are folded into one record: each field collects its contributions
in statement order. -/
def validateCodeCompleteness (context : String) (query : QueryAnalysis) : ValidationDetail :=
  let codeBlocks := codeBlockCount context
  let hasImports := strIncludes context "import" || strIncludes context "from"
  let hasExports := strIncludes context "export"
  let hasTypes := strIncludes context "interface" || strIncludes context "type"
  let score : ℚ :=
    (if codeBlocks == 0 then (0.1 : ℚ) else min 1 ((codeBlocks : ℚ) / 5)) +
    (if hasImports then (0.2 : ℚ) else 0) +
    (if hasExports then (0.1 : ℚ) else 0) +
    (if hasTypes then (0.1 : ℚ) else 0)
  { score := min 1 score
    weight := 0.3
    missingElements :=
      (if codeBlocks == 0 then ["No code implementations found"] else []) ++
      (if hasImports then [] else ["Missing import statements"])
    suggestions := if codeBlocks == 0 then ["Include actual code implementations"] else []
    warnings :=
      (if query.queryType == "function" && !strIncludes context "function" then
        ["Query asks about functions but few function definitions found"] else []) ++
      (if query.queryType == "class" && !strIncludes context "class" then
        ["Query asks about classes but few class definitions found"] else [])
    strengths :=
      (if codeBlocks == 0 then []
       else ["Contains " ++ toString codeBlocks ++ " code blocks"]) ++
      (if hasImports then ["Dependencies and imports are included"] else []) ++
      (if hasExports then ["Export statements included"] else []) ++
      (if hasTypes then ["Type definitions included"] else []) }

/-- `validateDependencyCompleteness` (weight 0.25). -/
def validateDependencyCompleteness (context : String) (query : QueryAnalysis) :
    ValidationDetail :=
  let hasDeps := strIncludes context "Dependencies" || strIncludes context "imports"
  let hasGraph := strIncludes context "Dependency" && strIncludes context "Graph"
  let hasUsage := strIncludes context "Usage" || strIncludes context "Pattern"
  let score : ℚ := (if hasDeps then (0.4 : ℚ) else 0) +
    (if hasGraph then (0.3 : ℚ) else 0) + (if hasUsage then (0.3 : ℚ) else 0)
  { score := min 1 score
    weight := 0.25
    missingElements := if hasDeps then [] else ["Missing dependency information"]
    suggestions :=
      if hasDeps then [] else ["Include dependency relationships and import statements"]
    warnings := []
    strengths := (if hasDeps then ["Dependency information included"] else []) ++
      (if hasGraph then ["Dependency graph visualization included"] else []) ++
      (if hasUsage then ["Usage patterns documented"] else []) }

/-- `validateStructuralCompleteness` (weight 0.20). -/
def validateStructuralCompleteness (context : String) (query : QueryAnalysis) :
    ValidationDetail :=
  let headers := headerCount context
  let hasFiles := strIncludes context "File Contents" || strIncludes context "Components"
  let hasSummary := strIncludes context "Summary" || strIncludes context "Overview"
  let hasInsights := strIncludes context "Insights" || strIncludes context "Analysis"
  let score : ℚ := (if headers ≥ 3 then (0.3 : ℚ) else 0) +
    (if hasFiles then (0.3 : ℚ) else 0) + (if hasSummary then (0.2 : ℚ) else 0) +
    (if hasInsights then (0.2 : ℚ) else 0)
  { score := min 1 score
    weight := 0.2
    missingElements := if hasSummary then [] else ["Missing project summary"]
    suggestions := if headers ≥ 3 then [] else ["Add more structural sections for clarity"]
    warnings := []
    strengths := (if headers ≥ 3 then ["Well-structured with multiple sections"] else []) ++
      (if hasFiles then ["File organization included"] else []) ++
      (if hasSummary then ["Contains summary/overview section"] else []) ++
      (if hasInsights then ["Includes analysis and insights"] else []) }

/-- `validateContextCoherence` (weight 0.15). -/
def validateContextCoherence (context : String) (query : QueryAnalysis) : ValidationDetail :=
  let contextLower := toLowerS context
  let keywordMatches := query.keywords.filter (fun kw => strIncludes contextLower (toLowerS kw))
  let coherenceRatio : ℚ := (keywordMatches.length : ℚ) / ((max query.keywords.length 1 : ℕ) : ℚ)
  let entityMatches := query.entities.filter (fun e => strIncludes contextLower (toLowerS e))
  let score : ℚ := coherenceRatio + (if entityMatches.length > 0 then (0.2 : ℚ) else 0)
  { score := min 1 score
    weight := 0.15
    missingElements := []
    suggestions :=
      if coherenceRatio ≥ 0.7 then []
      else if coherenceRatio ≥ 0.4 then []
      else ["Ensure context directly addresses the query"]
    warnings :=
      if coherenceRatio ≥ 0.7 then []
      else if coherenceRatio ≥ 0.4 then []
      else ["Low coherence between query and provided context"]
    strengths :=
      (if coherenceRatio ≥ 0.7 then ["High coherence between query and context"]
       else if coherenceRatio ≥ 0.4 then ["Good coherence between query and context"]
       else []) ++
      (if entityMatches.length > 0 then
        ["Found " ++ toString entityMatches.length ++ " requested entities"] else []) }

/-- `validateUsageExamples` (weight 0.10). -/
def validateUsageExamples (context : String) (query : QueryAnalysis) : ValidationDetail :=
  let hasExamples := strIncludes context "example" || strIncludes context "Example"
  let testsFound := strIncludes context "test" || strIncludes context "spec"
  let docsFound := strIncludes context "README" || strIncludes context "doc"
  let score : ℚ := (if hasExamples then (0.5 : ℚ) else 0) +
    (if query.requiresTests && testsFound then (0.3 : ℚ) else 0) +
    (if query.requiresDocumentation && docsFound then (0.2 : ℚ) else 0)
  { score := min 1 score
    weight := 0.1
    missingElements :=
      (if query.requiresTests && !testsFound then ["Missing test cases"] else []) ++
      (if query.requiresDocumentation && !docsFound then ["Missing documentation"] else [])
    suggestions := if query.requiresTests && !testsFound then ["Include relevant test files"] else []
    warnings := []
    strengths := (if hasExamples then ["Contains usage examples"] else []) ++
      (if query.requiresTests && testsFound then ["Test cases included"] else []) ++
      (if query.requiresDocumentation && docsFound then ["Documentation included"] else []) }

/-- `calculateConfidenceScore`: scale the completeness score by document
length and fence count, rounding to 2 decimals. -/
def calculateConfidenceScore (completenessScore : ℚ) (context : String) : ℚ :=
  let confidence := completenessScore
  let confidence :=
    if context.length < 1000 then confidence * 0.7
    else if context.length > 10000 then min 1 (confidence * 1.1)
    else confidence
  let confidence :=
    if codeBlockCount context ≥ 3 then min 1 (confidence * 1.05) else confidence
  (jsRound (confidence * 100) : ℚ) / 100

/-- The validator array assembled by `validateCompleteness`, in source
order. -/
def validationsOf (contextContent : String) (queryAnalysis : QueryAnalysis) :
    List ValidationDetail :=
  [validateCodeCompleteness contextContent queryAnalysis,
   validateDependencyCompleteness contextContent queryAnalysis,
   validateStructuralCompleteness contextContent queryAnalysis,
   validateContextCoherence contextContent queryAnalysis,
   validateUsageExamples contextContent queryAnalysis]

/-- `totalScore` accumulated over the validations. -/
def totalScoreOf (vs : List ValidationDetail) : ℚ :=
  vs.foldl (fun acc v => acc + v.score * v.weight) 0

/-- `totalWeight` accumulated over the validations. -/
def totalWeightOf (vs : List ValidationDetail) : ℚ :=
  vs.foldl (fun acc v => acc + v.weight) 0

/-- The concatenated (pre-deduplication) `missingElements` pushes. -/
def missingRawOf (vs : List ValidationDetail) : List String :=
  vs.foldl (fun acc v => acc ++ v.missingElements) []

/-- The concatenated (pre-deduplication) `suggestions` pushes. -/
def suggestionsRawOf (vs : List ValidationDetail) : List String :=
  vs.foldl (fun acc v => acc ++ v.suggestions) []

/-- The concatenated (pre-deduplication) `warnings` pushes. -/
def warningsRawOf (vs : List ValidationDetail) : List String :=
  vs.foldl (fun acc v => acc ++ v.warnings) []

/-- The concatenated (pre-deduplication) `strengths` pushes. -/
def strengthsRawOf (vs : List ValidationDetail) : List String :=
  vs.foldl (fun acc v => acc ++ v.strengths) []

/-- `completenessScore`: the weighted average rounded to 2 decimals (0 when
the total weight is not positive). -/
def completenessScoreOf (vs : List ValidationDetail) : ℚ :=
  if 0 < totalWeightOf vs then
    (jsRound (totalScoreOf vs / totalWeightOf vs * 100) : ℚ) / 100
  else 0

/-- The validation result record (interface `ValidationResult`). -/
structure ValidationResult where
  isComplete : Bool
  completenessScore : ℚ
  confidenceScore : ℚ
  missingElements : List String
  suggestions : List String
  warnings : List String
  strengths : List String
deriving DecidableEq

/-- `validateCompleteness`: aggregate the five validators.  The input is the
document text (`context.formattedContext`).  Note the source computes
`isComplete` from the PRE-deduplication `missingElements` length (line 58
precedes the dedup on line 61). -/
def validateCompleteness (contextContent query : String) : ValidationResult :=
  let queryAnalysis := analyzeQuery query
  let validations := validationsOf contextContent queryAnalysis
  { isComplete := decide ((0.8 : ℚ) ≤ completenessScoreOf validations) &&
      decide ((missingRawOf validations).length < 3)
    completenessScore := completenessScoreOf validations
    confidenceScore := calculateConfidenceScore (completenessScoreOf validations) contextContent
    missingElements := jsDedup (missingRawOf validations)
    suggestions := jsDedup (suggestionsRawOf validations)
    warnings := jsDedup (warningsRawOf validations)
    strengths := jsDedup (strengthsRawOf validations) }

/-! ## Properties of the embedding -/

/-- Splitting never produces an empty list of pieces. -/
theorem splitOnPred_ne_nil (p : Char → Bool) (l : List Char) : splitOnPred p l ≠ [] := by
  cases l with
  | nil => simp [splitOnPred]
  | cons c cs =>
    simp only [splitOnPred]
    split
    · simp
    · split <;> simp

/-- Splitting on `'\n'` and re-joining with `"\n"` is the identity.  This is
the round-trip fact behind the compression size bound. -/
theorem joinWithChars_splitOnPred_nl (l : List Char) :
    joinWithChars ['\n'] (splitOnPred (· == '\n') l) = l := by
  induction l with
  | nil => simp [splitOnPred, joinWithChars]
  | cons c cs ih =>
    simp only [splitOnPred]
    split
    · rename_i h
      have hc : c = '\n' := by simpa using h
      have hne := splitOnPred_ne_nil (· == '\n') cs
      cases hsp : splitOnPred (· == '\n') cs with
      | nil => exact absurd hsp hne
      | cons m ms =>
        subst hc
        simp only [joinWithChars]
        have := ih
        rw [hsp] at this
        simpa [joinWithChars] using this
    · have hne := splitOnPred_ne_nil (· == '\n') cs
      cases hsp : splitOnPred (· == '\n') cs with
      | nil => exact absurd hsp hne
      | cons m ms =>
        rw [hsp] at ih
        cases ms with
        | nil => simpa [joinWithChars] using ih
        | cons m' ms' => simpa [joinWithChars] using ih

/-- Joining a sub-selection of pieces never yields a longer list than joining
all the pieces. -/
theorem joinWithChars_length_le_of_sublist (sep : List Char) :
    ∀ {l₁ l₂ : List (List Char)}, l₁.Sublist l₂ →
      (joinWithChars sep l₁).length ≤ (joinWithChars sep l₂).length := by
  intro l₁ l₂ h
  induction h with
  | slnil => simp
  | @cons l₁ l₂ a _ ih =>
    refine ih.trans ?_
    cases l₂ with
    | nil => simp [joinWithChars]
    | cons b bs =>
      simp only [joinWithChars, List.length_append]
      omega
  | @cons₂ l₁ l₂ a h ih =>
    cases l₁ with
    | nil =>
      cases l₂ with
      | nil => exact le_refl _
      | cons b bs =>
        simp only [joinWithChars, List.length_append]
        omega
    | cons x xs =>
      cases l₂ with
      | nil => exact absurd h.length_le (by simp)
      | cons b bs =>
        simp only [joinWithChars, List.length_append]
        omega

theorem joinNl_splitNl (s : String) : joinNl (splitNl s) = s := by
  cases s with
  | mk data =>
    simp only [joinNl, splitNl, List.map_map]
    have : (String.data ∘ String.mk) = id := rfl
    rw [this, List.map_id, joinWithChars_splitOnPred_nl]

theorem joinNl_length_le_of_sublist {l₁ l₂ : List String} (h : l₁.Sublist l₂) :
    (joinNl l₁).length ≤ (joinNl l₂).length := by
  simpa [joinNl, String.length] using
    joinWithChars_length_le_of_sublist ['\n'] (h.map String.data)

theorem matchAtWith_length_le (m : Char → Char → Bool) :
    ∀ (ps s r : List Char), matchAtWith m ps s = some r → r.length ≤ s.length := by
  intro ps
  induction ps with
  | nil =>
    intro s r h
    simp only [matchAtWith, Option.some.injEq] at h
    simp [← h]
  | cons p ps ih =>
    intro s r h
    cases s with
    | nil => simp [matchAtWith] at h
    | cons c cs =>
      simp only [matchAtWith] at h
      split at h
      · exact (ih cs r h).trans (by simp)
      · exact absurd h (by simp)

theorem matchAtWith_congr {m₁ m₂ : Char → Char → Bool} :
    ∀ {ps : List Char}, (∀ p ∈ ps, ∀ c, m₁ p c = m₂ p c) →
      ∀ (s : List Char), matchAtWith m₁ ps s = matchAtWith m₂ ps s := by
  intro ps
  induction ps with
  | nil => intro _ s; rfl
  | cons p ps ih =>
    intro h s
    cases s with
    | nil => rfl
    | cons c cs =>
      simp only [matchAtWith]
      rw [h p (by simp) c]
      split
      · exact ih (fun q hq c' => h q (by simp [hq]) c') cs
      · rfl

theorem countWithNe_congr {m₁ m₂ : Char → Char → Bool} {p : Char} {ps : List Char}
    (hp : ∀ c, m₁ p c = m₂ p c) (hps : ∀ q ∈ ps, ∀ c, m₁ q c = m₂ q c) :
    ∀ (fuel : Nat) (s : List Char), countWithNe m₁ p ps fuel s = countWithNe m₂ p ps fuel s := by
  intro fuel
  induction fuel with
  | zero => intro s; cases s <;> rfl
  | succ n ih =>
    intro s
    cases s with
    | nil => rfl
    | cons c cs =>
      simp only [countWithNe]
      rw [hp c, matchAtWith_congr hps cs]
      split
      · cases hm : matchAtWith m₂ ps cs with
        | none => simpa using ih cs
        | some rest => simpa using ih rest
      · exact ih cs

/-- For a keyword containing no regex metacharacter at all (in particular no
`'.'`), the regular-expression match count is the literal occurrence
count. -/
theorem reCount_eq_litCount_of_no_metachar {pat : List Char}
    (h : pat.all (fun c => !isReMetachar c) = true) (s : List Char) :
    reCount pat s = litCount pat s := by
  have hcongr : ∀ q ∈ pat, ∀ c, reCharMatches q c = (q == c) := by
    intro q hq c
    have hq' : (!isReMetachar q) = true := List.all_eq_true.mp h q hq
    have hdot : (q == '.') = false := by
      cases hqe : q == '.' with
      | false => rfl
      | true =>
        have hqd : q = '.' := by simpa using hqe
        rw [hqd] at hq'
        exact absurd hq' (by decide)
    simp [reCharMatches, hdot]
  cases pat with
  | nil => rfl
  | cons p ps =>
    exact countWithNe_congr (hcongr p (by simp))
      (fun q hq c => hcongr q (by simp [hq]) c) s.length s

theorem scoreStep_eq (file : FileInfo) (n : Nat) (keyword : String) :
    scoreStep file n keyword = n + keywordTerm file keyword := by
  simp only [scoreStep, keywordTerm]
  split <;> split <;> split <;> split <;> omega

theorem calculateRelevanceScore_eq_sum (file : FileInfo) (keywords : List String) :
    calculateRelevanceScore file keywords = (keywords.map (keywordTerm file)).sum := by
  suffices h : ∀ (l : List String) (n : Nat),
      l.foldl (scoreStep file) n = n + (l.map (keywordTerm file)).sum by
    simpa [calculateRelevanceScore] using h keywords 0
  intro l
  induction l with
  | nil => intro n; simp
  | cons k ks ih =>
    intro n
    simp only [List.foldl_cons, List.map_cons, List.sum_cons]
    rw [ih, scoreStep_eq]
    omega

/-! ## Claim theorems -/

/-- C8: for every string (the empty string included), the token estimate
used throughout the pipeline equals `ceil(length(s) / 4)`. -/
theorem claim_C8 (s : String) :
    (estimateTokenCount s : ℤ) = ⌈(s.length : ℚ) / 4⌉ ∧ estimateTokenCount "" = 0 := by
  refine ⟨?_, rfl⟩
  set q := (s.length + 3) / 4 with hq
  have h1 : 4 * q ≤ s.length + 3 := by omega
  have h2 : s.length ≤ 4 * q := by omega
  have h1q : (4 * q : ℚ) ≤ (s.length : ℚ) + 3 := by exact_mod_cast h1
  have h2q : (s.length : ℚ) ≤ 4 * (q : ℚ) := by exact_mod_cast h2
  have hz : estimateTokenCount s = q := rfl
  rw [eq_comm, Int.ceil_eq_iff, hz]
  constructor
  · rw [lt_div_iff₀ (by norm_num : (0 : ℚ) < 4)]
    push_cast
    linarith
  · rw [div_le_iff₀ (by norm_num : (0 : ℚ) < 4)]
    push_cast
    linarith

/-- C7: every record produced by `analyzeFile` (success or failure branch)
has `dependencies` equal, element for element, to the `path` fields of its
`imports`. -/
theorem claim_C7 (ex : Extractors) (pathRelative : String → String → String)
    (projectRoot : String) (readStat : String → Option (FileStat × String))
    (now : Nat) (filePath : String) :
    (analyzeFile ex pathRelative projectRoot readStat now filePath).dependencies =
      (analyzeFile ex pathRelative projectRoot readStat now filePath).imports.map
        ImportRecord.path := by
  unfold analyzeFile
  cases readStat filePath with
  | none => simp
  | some v => cases v with | _ stats content => simp

/-- C6: when reading or statting a path throws, `analyzeFile` still returns
(and the index batch records) an entry with empty fact lists, size 0 and
language `other`, and a batch is never aborted by one failing file (it has
one entry per input path). -/
theorem claim_C6 (ex : Extractors) (pathRelative : String → String → String)
    (projectRoot : String) (readStat : String → Option (FileStat × String))
    (now : Nat) (paths : List String) (filePath : String)
    (h : readStat filePath = none) :
    (let r := analyzeFile ex pathRelative projectRoot readStat now filePath
     r.imports = [] ∧ r.exports = [] ∧ r.functions = [] ∧ r.classes = [] ∧
     r.interfaces = [] ∧ r.types = [] ∧ r.dependencies = [] ∧ r.size = 0 ∧
     r.language = .other) ∧
    (indexBatch ex pathRelative projectRoot readStat now paths).length = paths.length ∧
    (filePath ∈ paths →
      (filePath, analyzeFile ex pathRelative projectRoot readStat now filePath) ∈
        indexBatch ex pathRelative projectRoot readStat now paths) := by
  refine ⟨?_, by simp [indexBatch], ?_⟩
  · simp [analyzeFile, h]
  · intro hmem
    simp only [indexBatch, List.mem_map]
    exact ⟨filePath, hmem, rfl⟩

/-- Closed witness for C6: a read that throws on `"a.ts"` still yields the
empty-fact record and a one-entry batch. -/
theorem claim_C6_witness :
    (let r := analyzeFile ⟨fun _ _ => [], fun _ _ => [], fun _ _ => [], fun _ _ => [],
        fun _ _ => [], fun _ _ => []⟩ (fun _ p => p) "/proj" (fun _ => none) 0 "a.ts"
     r.imports = [] ∧ r.exports = [] ∧ r.functions = [] ∧ r.classes = [] ∧
     r.interfaces = [] ∧ r.types = [] ∧ r.dependencies = [] ∧ r.size = 0 ∧
     r.language = .other) ∧
    (indexBatch ⟨fun _ _ => [], fun _ _ => [], fun _ _ => [], fun _ _ => [],
        fun _ _ => [], fun _ _ => []⟩ (fun _ p => p) "/proj" (fun _ => none) 0
        ["a.ts"]).length = ["a.ts"].length ∧
    ("a.ts" ∈ ["a.ts"] →
      ("a.ts", analyzeFile ⟨fun _ _ => [], fun _ _ => [], fun _ _ => [], fun _ _ => [],
          fun _ _ => [], fun _ _ => []⟩ (fun _ p => p) "/proj" (fun _ => none) 0 "a.ts") ∈
        indexBatch ⟨fun _ _ => [], fun _ _ => [], fun _ _ => [], fun _ _ => [],
          fun _ _ => [], fun _ _ => []⟩ (fun _ p => p) "/proj" (fun _ => none) 0 ["a.ts"]) :=
  claim_C6 ⟨fun _ _ => [], fun _ _ => [], fun _ _ => [], fun _ _ => [],
    fun _ _ => [], fun _ _ => []⟩ (fun _ p => p) "/proj" (fun _ => none) 0 ["a.ts"] "a.ts" rfl

/-- C2 counterexample: on the internal-failure path the response's
`metadata.estimatedTokens` is the constant 100, not 0, so the metadata
fields are not all zero as the claim states. -/
theorem claim_C2_counterexample :
    (buildCompleteContext "q" "tree" (Except.ok ()) (.thrown "boom")).compressionLevel
      = "error" ∧
    (buildCompleteContext "q" "tree" (Except.ok ()) (.thrown "boom")).metadata.estimatedTokens
      = 100 ∧
    (buildCompleteContext "q" "tree" (Except.ok ()) (.thrown "boom")).metadata.estimatedTokens
      ≠ 0 :=
  ⟨rfl, rfl, by decide⟩

/-- C2 (amended): on any internal failure — invalid project root or an
exception thrown inside the `try` block — `buildCompleteContext` returns
(never raises) a well-formed response whose `totalFiles`, `totalLines`,
`totalFunctions`, `totalClasses` are 0, whose `estimatedTokens` and
`tokenCount` are the constant 100, and whose `compressionLevel` is
`"error"`. -/
theorem claim_C2 (query folderTree message : String) (body : TryOutcome) :
    (let r := buildCompleteContext query folderTree (Except.ok ()) (.thrown message)
     r.metadata.totalFiles = 0 ∧ r.metadata.totalLines = 0 ∧
     r.metadata.totalFunctions = 0 ∧ r.metadata.totalClasses = 0 ∧
     r.metadata.estimatedTokens = 100 ∧ r.tokenCount = 100 ∧
     r.compressionLevel = "error" ∧ r.filesIncluded = []) ∧
    (let r := buildCompleteContext query folderTree (Except.error message) body
     r.metadata.totalFiles = 0 ∧ r.metadata.totalLines = 0 ∧
     r.metadata.totalFunctions = 0 ∧ r.metadata.totalClasses = 0 ∧
     r.metadata.estimatedTokens = 100 ∧ r.tokenCount = 100 ∧
     r.compressionLevel = "error" ∧ r.filesIncluded = []) :=
  ⟨⟨rfl, rfl, rfl, rfl, rfl, rfl, rfl, rfl⟩, ⟨rfl, rfl, rfl, rfl, rfl, rfl, rfl, rfl⟩⟩

/-- C10: `buildDependencyGraph` is closed over its nodes: exactly one node
per input file with the relative path as id, and both endpoints of every
edge are ids of nodes. -/
theorem claim_C10 (files : List FileInfo) :
    (buildDependencyGraph files).1.length = files.length ∧
    (buildDependencyGraph files).1.map GraphNode.id = files.map FileInfo.relativePath ∧
    ∀ e ∈ (buildDependencyGraph files).2,
      e.source ∈ (buildDependencyGraph files).1.map GraphNode.id ∧
      e.target ∈ (buildDependencyGraph files).1.map GraphNode.id := by
  have hids : (buildDependencyGraph files).1.map GraphNode.id
      = files.map FileInfo.relativePath := by
    simp only [buildDependencyGraph, List.map_map]
    rfl
  refine ⟨by simp [buildDependencyGraph], hids, ?_⟩
  intro e he
  rw [hids]
  simp only [buildDependencyGraph, List.mem_flatMap, List.mem_filterMap] at he
  obtain ⟨file, hfile, imp, _, he⟩ := he
  cases hfind : files.find? (fun f =>
      strIncludes f.relativePath imp.path ||
      f.relativePath == imp.path ++ ".ts" ||
      f.relativePath == imp.path ++ ".js") with
  | none => rw [hfind] at he; simp at he
  | some targetFile =>
    rw [hfind] at he
    simp only [Option.some.injEq] at he
    have htgt : targetFile ∈ files := List.mem_of_find?_eq_some hfind
    subst he
    exact ⟨List.mem_map_of_mem FileInfo.relativePath hfile,
           List.mem_map_of_mem FileInfo.relativePath htgt⟩

/-- C1 counterexample: for the query `"a is on"` (zero keywords after
filtering) the relevance predicate is FALSE — not vacuously true — for a
primary-language (TypeScript) file, and the fallback branch IS taken. -/
theorem claim_C1_counterexample :
    queryKeywords "a is on" = [] ∧
    isPrimaryLanguage sampleTsFile.language = true ∧
    relevancePred (queryKeywords "a is on") sampleTsFile = false ∧
    List.filter (relevancePred (queryKeywords "a is on")) [sampleTsFile] = [] ∧
    candidateFiles [sampleTsFile] "a is on" = fallbackFiles [sampleTsFile] ∧
    fallbackFiles [sampleTsFile] = [sampleTsFile] := by
  refine ⟨by decide, rfl, by decide, by decide, by decide, by decide⟩

/-- C1 (amended): for every query whose keyword list is empty, the relevance
predicate REJECTS every file (`[].some(..)` is false), so the filtered
candidate set is empty and the fallback branch is taken; every
keyword-weighted score term vanishes, making every file's score 0. -/
theorem claim_C1 (allFiles : List FileInfo) (query : String) (file : FileInfo)
    (h : queryKeywords query = []) :
    relevancePred (queryKeywords query) file = false ∧
    List.filter (relevancePred (queryKeywords query)) allFiles = [] ∧
    candidateFiles allFiles query = fallbackFiles allFiles ∧
    calculateRelevanceScore file (queryKeywords query) = 0 := by
  have hpred : ∀ g : FileInfo, relevancePred (queryKeywords query) g = false := by
    intro g
    rw [h]
    simp [relevancePred, fileNameMatches, contentMatches]
  have hfilter : List.filter (relevancePred (queryKeywords query)) allFiles = [] := by
    simp only [List.filter_eq_nil_iff]
    intro g _
    simp [hpred g]
  refine ⟨hpred file, hfilter, ?_, by rw [h]; rfl⟩
  simp only [candidateFiles]
  rw [hfilter]
  rfl

/-- Closed witness for C1 (amended) at the query `"a is on"`. -/
theorem claim_C1_witness :
    relevancePred (queryKeywords "a is on") sampleTsFile = false ∧
    List.filter (relevancePred (queryKeywords "a is on")) [sampleTsFile] = [] ∧
    candidateFiles [sampleTsFile] "a is on" = fallbackFiles [sampleTsFile] ∧
    calculateRelevanceScore sampleTsFile (queryKeywords "a is on") = 0 :=
  claim_C1 [sampleTsFile] "a is on" sampleTsFile (by decide)

/-- C3 counterexample: for the legal keyword `"a.c"` (a 3-character query
token, inside the `rePlain` fragment where the embedding computes the
program's match count exactly) and a file whose lowercased content is
`"axc"`, the score is 1 (the keyword is compiled as a regular expression,
and `a.c` matches `axc` — `'x'` is no line terminator) while the
literal-occurrence reading of the claim gives 0. -/
theorem claim_C3_counterexample :
    calculateRelevanceScore dotKeywordFile ["a.c"] = 1 ∧
    claimedRelevanceScore dotKeywordFile ["a.c"] = 0 := by
  refine ⟨by decide, by decide⟩

/-- C3 (amended): for every keyword list inside the plain-pattern fragment
(each keyword character is `'.'` or a non-metacharacter, so the compiled
pattern is a sequence of single-character atoms and `new RegExp` cannot
throw — keywords with other metacharacters get richer regex semantics or a
`SyntaxError` and are outside this statement), the relevance score is the
sum over all keywords of 10·path-hit + 8·function-hit + 8·class-hit +
min(content matches, 5) + 5·import-hit, where the content term counts the
global matches of the keyword compiled as a regular expression (`'.'`
matching any character except a line terminator); when furthermore no
keyword contains any regex metacharacter at all, the content term coincides
with the literal-occurrence reading. -/
theorem claim_C3 (file : FileInfo) (keywords : List String)
    (hplain : ∀ kw ∈ keywords, rePlain kw.data = true) :
    calculateRelevanceScore file keywords = (keywords.map (keywordTerm file)).sum ∧
    ((∀ kw ∈ keywords, kw.data.all (fun c => !isReMetachar c) = true) →
      calculateRelevanceScore file keywords = claimedRelevanceScore file keywords) := by
  refine ⟨calculateRelevanceScore_eq_sum file keywords, ?_⟩
  intro hnm
  rw [calculateRelevanceScore_eq_sum, claimedRelevanceScore]
  congr 1
  apply List.map_congr_left
  intro kw hkw
  simp only [keywordTerm, keywordTermLiteral]
  rw [reCount_eq_litCount_of_no_metachar (hnm kw hkw)]

/-- Closed witness for C3 (amended) on the plain, metacharacter-free keyword
`"axc"`. -/
theorem claim_C3_witness :
    calculateRelevanceScore dotKeywordFile ["axc"]
      = (["axc"].map (keywordTerm dotKeywordFile)).sum ∧
    calculateRelevanceScore dotKeywordFile ["axc"]
      = claimedRelevanceScore dotKeywordFile ["axc"] :=
  ⟨(claim_C3 dotKeywordFile ["axc"] (by decide)).1,
   (claim_C3 dotKeywordFile ["axc"] (by decide)).2 (by decide)⟩

/-- C9: when no file passes the relevance filter the candidate set becomes
the fallback set — a sublist of the input (original order) of at most 10
primary-language files whose path contains "index" or "main" or that have at
least one function or class — and for every input whatsoever the ranked
result has at most 20 entries. -/
theorem claim_C9 (allFiles : List FileInfo) (query : String) (scope : Option String) :
    (List.filter (relevancePred (queryKeywords query)) allFiles = [] →
      candidateFiles allFiles query = fallbackFiles allFiles) ∧
    (fallbackFiles allFiles).Sublist allFiles ∧
    (∀ f ∈ fallbackFiles allFiles,
      isPrimaryLanguage f.language = true ∧
      (strIncludes (toLowerS f.relativePath) "index" = true ∨
       strIncludes (toLowerS f.relativePath) "main" = true ∨
       0 < f.functions.length ∨ 0 < f.classes.length)) ∧
    (fallbackFiles allFiles).length ≤ 10 ∧
    (findRelevantFiles allFiles query scope).length ≤ 20 := by
  refine ⟨?_, ?_, ?_, ?_, ?_⟩
  · intro hempty
    simp only [candidateFiles]
    rw [hempty]
    rfl
  · exact (List.take_sublist _ _).trans (List.filter_sublist _)
  · intro f hf
    have hmem : f ∈ List.filter fallbackPred allFiles :=
      List.take_subset _ _ hf
    have hp : fallbackPred f = true := (List.mem_filter.mp hmem).2
    simp only [fallbackPred, Bool.and_eq_true, Bool.or_eq_true] at hp
    obtain ⟨hprim, hrest⟩ := hp
    refine ⟨hprim, ?_⟩
    rcases hrest with ((h1 | h2) | h3) | h4
    · exact Or.inl h1
    · exact Or.inr (Or.inl h2)
    · exact Or.inr (Or.inr (Or.inl (by simpa using h3)))
    · exact Or.inr (Or.inr (Or.inr (by simpa using h4)))
  · exact List.length_take_le _ _
  · exact List.length_take_le _ _

/-- Closed witness for C9 at a query that matches nothing. -/
theorem claim_C9_witness :
    candidateFiles [sampleTsFile] "zzzz" = fallbackFiles [sampleTsFile] ∧
    (fallbackFiles [sampleTsFile]).Sublist [sampleTsFile] ∧
    (fallbackFiles [sampleTsFile]).length ≤ 10 ∧
    (findRelevantFiles [sampleTsFile] "zzzz" none).length ≤ 20 :=
  ⟨(claim_C9 [sampleTsFile] "zzzz" none).1 (by decide),
   (claim_C9 [sampleTsFile] "zzzz" none).2.1,
   (claim_C9 [sampleTsFile] "zzzz" none).2.2.2.1,
   (claim_C9 [sampleTsFile] "zzzz" none).2.2.2.2⟩

/-- Tier 2 keeps a subsequence of the input lines, whatever the fence
state. -/
theorem aggressiveFilter_sublist : ∀ (b : Bool) (ls : List String),
    (aggressiveFilter b ls).Sublist ls := by
  intro b ls
  induction ls generalizing b with
  | nil => simp [aggressiveFilter]
  | cons l rest ih =>
    simp only [aggressiveFilter]
    split
    · exact (ih _).cons₂ l
    · split
      · split
        · exact (ih _).cons₂ l
        · exact (ih _).cons l
      · split
        · exact (ih _).cons₂ l
        · exact (ih _).cons l

/-- Tier 2 never lengthens the document. -/
theorem aggressiveCompression_length_le (s : String) (m : Nat) :
    (aggressiveCompression s m).length ≤ s.length := by
  have h := joinNl_length_le_of_sublist (aggressiveFilter_sublist false (splitNl s))
  rw [joinNl_splitNl] at h
  exact h

/-- C5: the Tier 2 output's token estimate never exceeds the Tier 1
output's; Tier 2 runs exactly when the Tier 1 estimate exceeds `maxTokens`,
and its output is returned with no further budget check. -/
theorem claim_C5 (context : String) (maxTokens : Nat) :
    estimateTokenCount (aggressiveCompression (tier1Compress context) maxTokens)
      ≤ estimateTokenCount (tier1Compress context) ∧
    (maxTokens < estimateTokenCount (tier1Compress context) →
      intelligentCompression context maxTokens
        = aggressiveCompression (tier1Compress context) maxTokens) ∧
    (estimateTokenCount (tier1Compress context) ≤ maxTokens →
      intelligentCompression context maxTokens = tier1Compress context) := by
  refine ⟨?_, ?_, ?_⟩
  · have h := aggressiveCompression_length_le (tier1Compress context) maxTokens
    exact Nat.div_le_div_right (by omega)
  · intro h
    simp only [intelligentCompression]
    rw [if_pos h]
  · intro h
    simp only [intelligentCompression]
    rw [if_neg (by omega)]

/-- Closed witness for C5: on the one-line document `"x"` with budget 0,
Tier 1 leaves the document alone, its estimate (1) exceeds the budget, and
Tier 2 output is returned. -/
theorem claim_C5_witness :
    estimateTokenCount (aggressiveCompression (tier1Compress "x") 0)
      ≤ estimateTokenCount (tier1Compress "x") ∧
    intelligentCompression "x" 0 = aggressiveCompression (tier1Compress "x") 0 :=
  ⟨(claim_C5 "x" 0).1, (claim_C5 "x" 0).2.1 (by decide)⟩

/-- De-duplication produces duplicate-free lists whose members avoid the
`seen` accumulator. -/
theorem jsDedupAux_nodup : ∀ (l seen : List String),
    (jsDedupAux seen l).Nodup ∧ ∀ x ∈ jsDedupAux seen l, x ∉ seen := by
  intro l
  induction l with
  | nil => intro seen; exact ⟨List.nodup_nil, by simp [jsDedupAux]⟩
  | cons a l ih =>
    intro seen
    simp only [jsDedupAux]
    split
    · exact ⟨(ih seen).1, (ih seen).2⟩
    · rename_i ha
      refine ⟨List.nodup_cons.mpr ⟨?_, (ih (a :: seen)).1⟩, ?_⟩
      · intro hmem
        exact (ih (a :: seen)).2 a hmem (by simp)
      · intro x hx hxseen
        rcases List.mem_cons.mp hx with rfl | hx'
        · exact ha hxseen
        · exact (ih (a :: seen)).2 x hx' (by simp [hxseen])

theorem jsDedup_nodup (l : List String) : (jsDedup l).Nodup := (jsDedupAux_nodup l []).1

theorem jsDedupAux_eq_self : ∀ (l seen : List String), l.Nodup → (∀ x ∈ l, x ∉ seen) →
    jsDedupAux seen l = l := by
  intro l
  induction l with
  | nil => intro seen _ _; rfl
  | cons a l ih =>
    intro seen hnd hsn
    simp only [jsDedupAux]
    rw [if_neg (hsn a (by simp))]
    congr 1
    refine ih (a :: seen) (List.nodup_cons.mp hnd).2 ?_
    intro x hx hmem
    rcases List.mem_cons.mp hmem with rfl | h
    · exact (List.nodup_cons.mp hnd).1 hx
    · exact hsn x (List.mem_cons_of_mem a hx) h

/-- On an already duplicate-free list, `[...new Set(l)]` is the identity, so
the pre- and post-deduplication lengths agree. -/
theorem jsDedup_eq_self {l : List String} (h : l.Nodup) : jsDedup l = l :=
  jsDedupAux_eq_self l [] h (by simp)

theorem validateCodeCompleteness_weight (c : String) (q : QueryAnalysis) :
    (validateCodeCompleteness c q).weight = 0.3 := rfl

theorem validateDependencyCompleteness_weight (c : String) (q : QueryAnalysis) :
    (validateDependencyCompleteness c q).weight = 0.25 := rfl

theorem validateStructuralCompleteness_weight (c : String) (q : QueryAnalysis) :
    (validateStructuralCompleteness c q).weight = 0.2 := rfl

theorem validateContextCoherence_weight (c : String) (q : QueryAnalysis) :
    (validateContextCoherence c q).weight = 0.15 := rfl

theorem validateUsageExamples_weight (c : String) (q : QueryAnalysis) :
    (validateUsageExamples c q).weight = 0.1 := rfl

theorem validateCodeCompleteness_score (c : String) (q : QueryAnalysis) :
    0 ≤ (validateCodeCompleteness c q).score ∧ (validateCodeCompleteness c q).score ≤ 1 := by
  simp only [validateCodeCompleteness]
  refine ⟨le_min (by norm_num) ?_, min_le_left _ _⟩
  split_ifs <;> positivity

theorem validateDependencyCompleteness_score (c : String) (q : QueryAnalysis) :
    0 ≤ (validateDependencyCompleteness c q).score ∧
      (validateDependencyCompleteness c q).score ≤ 1 := by
  simp only [validateDependencyCompleteness]
  refine ⟨le_min (by norm_num) ?_, min_le_left _ _⟩
  split_ifs <;> positivity

theorem validateStructuralCompleteness_score (c : String) (q : QueryAnalysis) :
    0 ≤ (validateStructuralCompleteness c q).score ∧
      (validateStructuralCompleteness c q).score ≤ 1 := by
  simp only [validateStructuralCompleteness]
  refine ⟨le_min (by norm_num) ?_, min_le_left _ _⟩
  split_ifs <;> positivity

theorem validateContextCoherence_score (c : String) (q : QueryAnalysis) :
    0 ≤ (validateContextCoherence c q).score ∧ (validateContextCoherence c q).score ≤ 1 := by
  simp only [validateContextCoherence]
  refine ⟨le_min (by norm_num) ?_, min_le_left _ _⟩
  split_ifs <;> positivity

theorem validateUsageExamples_score (c : String) (q : QueryAnalysis) :
    0 ≤ (validateUsageExamples c q).score ∧ (validateUsageExamples c q).score ≤ 1 := by
  simp only [validateUsageExamples]
  refine ⟨le_min (by norm_num) ?_, min_le_left _ _⟩
  split_ifs <;> positivity

theorem totalWeightOf_validations (doc : String) (qa : QueryAnalysis) :
    totalWeightOf (validationsOf doc qa) = 1 := by
  simp only [totalWeightOf, validationsOf, List.foldl_cons, List.foldl_nil,
    validateCodeCompleteness_weight, validateDependencyCompleteness_weight,
    validateStructuralCompleteness_weight, validateContextCoherence_weight,
    validateUsageExamples_weight]
  norm_num

theorem totalScoreOf_bounds (doc : String) (qa : QueryAnalysis) :
    0 ≤ totalScoreOf (validationsOf doc qa) ∧ totalScoreOf (validationsOf doc qa) ≤ 1 := by
  obtain ⟨a0, a1⟩ := validateCodeCompleteness_score doc qa
  obtain ⟨b0, b1⟩ := validateDependencyCompleteness_score doc qa
  obtain ⟨c0, c1⟩ := validateStructuralCompleteness_score doc qa
  obtain ⟨d0, d1⟩ := validateContextCoherence_score doc qa
  obtain ⟨e0, e1⟩ := validateUsageExamples_score doc qa
  simp only [totalScoreOf, validationsOf, List.foldl_cons, List.foldl_nil,
    validateCodeCompleteness_weight, validateDependencyCompleteness_weight,
    validateStructuralCompleteness_weight, validateContextCoherence_weight,
    validateUsageExamples_weight]
  constructor <;> nlinarith

theorem completenessScoreOf_bounds (doc : String) (qa : QueryAnalysis) :
    0 ≤ completenessScoreOf (validationsOf doc qa) ∧
      completenessScoreOf (validationsOf doc qa) ≤ 1 := by
  obtain ⟨h0, h1⟩ := totalScoreOf_bounds doc qa
  have hw := totalWeightOf_validations doc qa
  simp only [completenessScoreOf, hw]
  rw [if_pos (by norm_num : (0 : ℚ) < 1)]
  have hr0 : (0 : ℤ) ≤ jsRound (totalScoreOf (validationsOf doc qa) / 1 * 100) := by
    simp only [jsRound]
    refine Int.le_floor.mpr ?_
    push_cast
    rw [div_one]
    linarith
  have hr1 : jsRound (totalScoreOf (validationsOf doc qa) / 1 * 100) ≤ 100 := by
    simp only [jsRound]
    have hle : totalScoreOf (validationsOf doc qa) / 1 * 100 + 1/2 ≤ (100 : ℚ) + 1/2 := by
      rw [div_one]; linarith
    have h100 : ⌊(100 : ℚ) + 1/2⌋ = (100 : ℤ) := by
      rw [Int.floor_eq_iff]
      constructor <;> norm_num
    exact (Int.floor_le_floor hle).trans (le_of_eq h100)
  constructor
  · have : (0 : ℚ) ≤ (jsRound (totalScoreOf (validationsOf doc qa) / 1 * 100) : ℚ) := by
      exact_mod_cast hr0
    positivity
  · rw [div_le_one (by norm_num : (0 : ℚ) < 100)]
    exact_mod_cast hr1

theorem validateCodeCompleteness_missing (c : String) (q : QueryAnalysis) :
    (validateCodeCompleteness c q).missingElements.Sublist
      ["No code implementations found", "Missing import statements"] := by
  simp only [validateCodeCompleteness]
  have h1 : (if codeBlockCount c == 0 then ["No code implementations found"]
      else ([] : List String)).Sublist ["No code implementations found"] := by
    split <;> simp
  have h2 : (if strIncludes c "import" || strIncludes c "from" then ([] : List String)
      else ["Missing import statements"]).Sublist ["Missing import statements"] := by
    split <;> simp
  exact h1.append h2

theorem validateDependencyCompleteness_missing (c : String) (q : QueryAnalysis) :
    (validateDependencyCompleteness c q).missingElements.Sublist
      ["Missing dependency information"] := by
  simp only [validateDependencyCompleteness]
  split <;> simp

theorem validateStructuralCompleteness_missing (c : String) (q : QueryAnalysis) :
    (validateStructuralCompleteness c q).missingElements.Sublist
      ["Missing project summary"] := by
  simp only [validateStructuralCompleteness]
  split <;> simp

theorem validateContextCoherence_missing (c : String) (q : QueryAnalysis) :
    (validateContextCoherence c q).missingElements = [] := rfl

theorem validateUsageExamples_missing (c : String) (q : QueryAnalysis) :
    (validateUsageExamples c q).missingElements.Sublist
      ["Missing test cases", "Missing documentation"] := by
  simp only [validateUsageExamples]
  have h1 : (if q.requiresTests && !(strIncludes c "test" || strIncludes c "spec") then
      ["Missing test cases"] else ([] : List String)).Sublist ["Missing test cases"] := by
    split <;> simp
  have h2 : (if q.requiresDocumentation && !(strIncludes c "README" || strIncludes c "doc") then
      ["Missing documentation"] else ([] : List String)).Sublist ["Missing documentation"] := by
    split <;> simp
  exact h1.append h2

theorem missingRawOf_sublist (doc : String) (qa : QueryAnalysis) :
    (missingRawOf (validationsOf doc qa)).Sublist
      ["No code implementations found", "Missing import statements",
       "Missing dependency information", "Missing project summary",
       "Missing test cases", "Missing documentation"] := by
  have h1 := validateCodeCompleteness_missing doc qa
  have h2 := validateDependencyCompleteness_missing doc qa
  have h3 := validateStructuralCompleteness_missing doc qa
  have h4 : (validateContextCoherence doc qa).missingElements.Sublist ([] : List String) := by
    rw [validateContextCoherence_missing]
  have h5 := validateUsageExamples_missing doc qa
  have hsplit : missingRawOf (validationsOf doc qa) =
      (validateCodeCompleteness doc qa).missingElements ++
      ((validateDependencyCompleteness doc qa).missingElements ++
       ((validateStructuralCompleteness doc qa).missingElements ++
        ((validateContextCoherence doc qa).missingElements ++
         (validateUsageExamples doc qa).missingElements))) := by
    simp [missingRawOf, validationsOf, List.foldl_cons, List.append_assoc]
  rw [hsplit]
  have := h1.append (h2.append (h3.append (h4.append h5)))
  simpa using this

theorem missingRawOf_nodup (doc : String) (qa : QueryAnalysis) :
    (missingRawOf (validationsOf doc qa)).Nodup := by
  have hcat : (["No code implementations found", "Missing import statements",
      "Missing dependency information", "Missing project summary",
      "Missing test cases", "Missing documentation"] : List String).Nodup := by decide
  exact hcat.sublist (missingRawOf_sublist doc qa)

/-- C4: for every document and query, the completeness score is in `[0,1]`,
the four returned lists hold no duplicates, and `isComplete` is true exactly
when the score is at least 0.8 and the returned `missingElements` list has
fewer than 3 entries (the source tests the pre-deduplication length, but the
possible missing-element messages are pairwise distinct, so both lengths
agree). -/
theorem claim_C4 (doc query : String) :
    (0 ≤ (validateCompleteness doc query).completenessScore ∧
     (validateCompleteness doc query).completenessScore ≤ 1) ∧
    (validateCompleteness doc query).missingElements.Nodup ∧
    (validateCompleteness doc query).suggestions.Nodup ∧
    (validateCompleteness doc query).warnings.Nodup ∧
    (validateCompleteness doc query).strengths.Nodup ∧
    ((validateCompleteness doc query).isComplete = true ↔
      ((0.8 : ℚ) ≤ (validateCompleteness doc query).completenessScore ∧
       (validateCompleteness doc query).missingElements.length < 3)) := by
  have hms : (validateCompleteness doc query).missingElements
      = jsDedup (missingRawOf (validationsOf doc (analyzeQuery query))) := rfl
  have hsg : (validateCompleteness doc query).suggestions
      = jsDedup (suggestionsRawOf (validationsOf doc (analyzeQuery query))) := rfl
  have hwn : (validateCompleteness doc query).warnings
      = jsDedup (warningsRawOf (validationsOf doc (analyzeQuery query))) := rfl
  have hst : (validateCompleteness doc query).strengths
      = jsDedup (strengthsRawOf (validationsOf doc (analyzeQuery query))) := rfl
  have hcs : (validateCompleteness doc query).completenessScore
      = completenessScoreOf (validationsOf doc (analyzeQuery query)) := rfl
  have hic : (validateCompleteness doc query).isComplete
      = (decide ((0.8 : ℚ) ≤ completenessScoreOf (validationsOf doc (analyzeQuery query))) &&
         decide ((missingRawOf (validationsOf doc (analyzeQuery query))).length < 3)) := rfl
  have hnd := missingRawOf_nodup doc (analyzeQuery query)
  have hded : jsDedup (missingRawOf (validationsOf doc (analyzeQuery query)))
      = missingRawOf (validationsOf doc (analyzeQuery query)) := jsDedup_eq_self hnd
  refine ⟨?_, ?_, ?_, ?_, ?_, ?_⟩
  · rw [hcs]
    exact completenessScoreOf_bounds doc (analyzeQuery query)
  · rw [hms]; exact jsDedup_nodup _
  · rw [hsg]; exact jsDedup_nodup _
  · rw [hwn]; exact jsDedup_nodup _
  · rw [hst]; exact jsDedup_nodup _
  · rw [hic, hms, hded, hcs]
    simp [Bool.and_eq_true, decide_eq_true_eq]
